import Mathlib

/-!
# Verification of the Game_Duration play-by-play scripts

Shallow embedding of the time-parsing and dataframe logic of the
`pbp_scripts` and `AbhiPendyala` scripts: the 12-hour wall-clock
parsers, the event-density heuristics of `find_event_densities.py`,
the per-game duration and outlier filter of `remove_outliers.py`,
the time arithmetic of both `season_metrics.py` scripts, the season
derivation helpers, and the retry/checkpoint control flow of
`season_pbp.py`.  Strings are modelled as Lean `String`, wall-clock
times as minutes or seconds since midnight (`Nat`), time differences
as `Int`, missing values as `Option`, and raised exceptions as
`Except String`.
-/

namespace GameDuration

/-! ## Character and string utilities (Python `str` / `re` semantics) -/

/-- Value of a decimal digit character (`int(c)` on a digit). -/
def digitVal (c : Char) : Nat := c.toNat - 48

/-- Python's `\d` over ASCII: `'0' ≤ c ≤ '9'`. -/
def isDigitC (c : Char) : Bool := decide (48 ≤ c.toNat ∧ c.toNat ≤ 57)

/-- Python's `\s` over ASCII: space, tab, newline, CR, vertical tab, form feed. -/
def isWsC (c : Char) : Bool := decide (c.toNat = 32 ∨ (9 ≤ c.toNat ∧ c.toNat ≤ 13))

/-- Python `str.strip()` on a character list. -/
def pyStrip (cs : List Char) : List Char :=
  ((cs.dropWhile isWsC).reverse.dropWhile isWsC).reverse

/-- Python `str.strip()` on a string. -/
def pyStripStr (s : String) : String := String.mk (pyStrip s.toList)

/-- One pass of `re.sub(r"\s+", " ", s)`: `prevWs` records whether the
previous character belonged to a whitespace run already replaced. -/
def collapseWsGo (prevWs : Bool) : List Char → List Char
  | [] => []
  | c :: rest =>
    if isWsC c then
      if prevWs then collapseWsGo true rest
      else ' ' :: collapseWsGo true rest
    else c :: collapseWsGo false rest

/-- Python `re.sub(r"\s+", " ", s)`: collapse every whitespace run to one space. -/
def collapseWs (cs : List Char) : List Char := collapseWsGo false cs

/-- `re.sub(r"\s+", " ", s)` on a string. -/
def collapseWsStr (s : String) : String := String.mk (collapseWs s.toList)

/-! ## `strptime`-style parsing of the `'%I:%M %p'` format

Both `find_event_densities.py` (`pd.to_datetime(s, format='%I:%M %p')`)
and `season_metrics.py` (`datetime.strptime(s, TIME_FMT)`) parse the
12-hour format.  `_strptime` matches `%I` with `1[0-2]|0[1-9]|[1-9]`,
`%M` with `[0-5]\d|\d`, a space in the format with `\s+`, and `%p`
with AM/PM case-insensitively, against the whole string. -/

/-- `%I`: hour 1-12, one or two digits (`1[0-2]|0[1-9]|[1-9]`). -/
def parseHourI : List Char → Option (Nat × List Char)
  | [] => none
  | [c1] => if isDigitC c1 ∧ 1 ≤ digitVal c1 then some (digitVal c1, []) else none
  | c1 :: c2 :: rest =>
    if isDigitC c1 ∧ isDigitC c2 then
      if (c1 = '1' ∧ digitVal c2 ≤ 2) ∨ (c1 = '0' ∧ 1 ≤ digitVal c2) then
        some (10 * digitVal c1 + digitVal c2, rest)
      else none
    else if isDigitC c1 ∧ 1 ≤ digitVal c1 then some (digitVal c1, c2 :: rest)
    else none

/-- `%M`: minute 0-59, one or two digits (`[0-5]\d|\d`). -/
def parseMinuteM : List Char → Option (Nat × List Char)
  | [] => none
  | [c1] => if isDigitC c1 then some (digitVal c1, []) else none
  | c1 :: c2 :: rest =>
    if isDigitC c1 ∧ isDigitC c2 then
      if digitVal c1 ≤ 5 then some (10 * digitVal c1 + digitVal c2, rest) else none
    else if isDigitC c1 then some (digitVal c1, c2 :: rest)
    else none

/-- The literal `':'` of the format. -/
def expectColon : List Char → Option (List Char)
  | ':' :: rest => some rest
  | _ => none

/-- The space of the format: `\s+`. -/
def parseWs1 : List Char → Option (List Char)
  | c :: rest => if isWsC c then some (rest.dropWhile isWsC) else none
  | [] => none

/-- `%p`: AM or PM, case-insensitive.  Returns `true` for PM. -/
def parseAmPm : List Char → Option (Bool × List Char)
  | c1 :: c2 :: rest =>
    if (c1 = 'A' ∨ c1 = 'a') ∧ (c2 = 'M' ∨ c2 = 'm') then some (false, rest)
    else if (c1 = 'P' ∨ c1 = 'p') ∧ (c2 = 'M' ∨ c2 = 'm') then some (true, rest)
    else none
  | _ => none

/-- `strptime(s, '%I:%M %p')` reduced to minutes since midnight;
`none` models the raised `ValueError` / `NaT`.  The hour is folded by
`hour % 12` plus 12 for PM, exactly as `strptime` fills `tm_hour`. -/
def strptime12h (s : String) : Option Nat := do
  let (h, r1) ← parseHourI s.toList
  let r2 ← expectColon r1
  let (m, r3) ← parseMinuteM r2
  let r4 ← parseWs1 r3
  let (pm, r5) ← parseAmPm r4
  if r5 = [] then pure ((h % 12 + if pm then 12 else 0) * 60 + m) else none

/-! ## `pbp_scripts/find_event_densities.py`

A play-by-play row carries the three columns the script reads; the two
heuristics walk index windows over the sorted rows, parse the wall
clock strings, adjust the end time by one day on midnight rollover,
and collect the triggering windows.  `Except String` models the
exceptions `pd.to_datetime` and the explicit `raise ValueError` can
throw. -/

/-- Results of computations that can raise are compared concretely. -/
instance exceptDecEq {ε α : Type} [DecidableEq ε] [DecidableEq α] :
    DecidableEq (Except ε α) := fun x y =>
  match x, y with
  | Except.ok a, Except.ok b =>
    if h : a = b then isTrue (by rw [h]) else isFalse (by intro hc; cases hc; exact h rfl)
  | Except.error a, Except.error b =>
    if h : a = b then isTrue (by rw [h]) else isFalse (by intro hc; cases hc; exact h rfl)
  | Except.ok _, Except.error _ => isFalse (by intro hc; cases hc)
  | Except.error _, Except.ok _ => isFalse (by intro hc; cases hc)

/-- One row of a play-by-play dataframe, with the columns
`find_event_densities.py` reads. -/
structure PbpRow where
  game_id : Int
  eventnum : Int
  wctimestring : String
deriving DecidableEq, Repr

/-- An output row of `find_long_events_12_hour_standard`. -/
structure LongEventRow where
  game_id : Int
  eventnum : Int
  start_time : String
  end_time : String
  min_diff : Int
deriving DecidableEq, Repr

/-- An output row of `find_many_events_in_short_time_12_hour_standard`. -/
structure ManyEventRow where
  game_id : Int
  eventnum_start : Int
  eventnum_end : Int
  event_count : Nat
  start_time : String
  end_time : String
deriving DecidableEq, Repr

/-- The midnight-rollover adjustment both heuristics perform:
`if end_datetime < start_datetime: end_datetime += pd.Timedelta(days=1)`,
with times in minutes since midnight. -/
def rollover_adjust (start_min end_min : Nat) : Int :=
  if end_min < start_min then (end_min : Int) + 1440 else (end_min : Int)

/-- The loop body of `find_long_events_12_hour_standard`, run over the
index list `range(len(df) - event_num_diff)`. -/
def find_long_go (df : List PbpRow) (minutes_threshold : Int) (event_num_diff : Nat) :
    List Nat → Except String (List LongEventRow)
  | [] => Except.ok []
  | i :: rest =>
    match df[i]?, df[i + event_num_diff]? with
    | some start_event, some end_event =>
      match strptime12h start_event.wctimestring, strptime12h end_event.wctimestring with
      | some start_min, some end_min =>
        let min_diff : Int := rollover_adjust start_min end_min - (start_min : Int)
        match find_long_go df minutes_threshold event_num_diff rest with
        | Except.error e => Except.error e
        | Except.ok tail =>
          Except.ok (if minutes_threshold < min_diff then
            ⟨start_event.game_id, start_event.eventnum,
             start_event.wctimestring, end_event.wctimestring, min_diff⟩ :: tail
          else tail)
      | _, _ => Except.error "time data does not match format"
    | _, _ => Except.error "single positional indexer is out-of-bounds"

/-- `find_long_events_12_hour_standard(pbp_game_df, minutes_threshold,
event_num_diff)`: flag every index `i` whose event lies more than
`minutes_threshold` minutes before event `i + event_num_diff`. -/
def find_long_events_12_hour_standard (pbp_game_df : List PbpRow)
    (minutes_threshold : Int) (event_num_diff : Nat) :
    Except String (List LongEventRow) :=
  find_long_go pbp_game_df minutes_threshold event_num_diff
    (List.range (pbp_game_df.length - event_num_diff))

/-- The loop body of `find_many_events_in_short_time_12_hour_standard`,
run over the index list `range(len(df) - event_num_diff + 1)`; raises
`ValueError` when the adjusted difference is negative. -/
def find_many_go (df : List PbpRow) (minutes_threshold : Int) (event_num_diff : Nat) :
    List Nat → Except String (List ManyEventRow)
  | [] => Except.ok []
  | i :: rest =>
    match df[i]?, df[i + event_num_diff - 1]? with
    | some start_event, some end_event =>
      match strptime12h start_event.wctimestring, strptime12h end_event.wctimestring with
      | some start_min, some end_min =>
        let min_diff : Int := rollover_adjust start_min end_min - (start_min : Int)
        if min_diff < 0 then
          Except.error "The time difference cannot be negative. Please check the input data."
        else
          match find_many_go df minutes_threshold event_num_diff rest with
          | Except.error e => Except.error e
          | Except.ok tail =>
            Except.ok (if min_diff ≤ minutes_threshold then
              ⟨start_event.game_id, start_event.eventnum, end_event.eventnum,
               event_num_diff, start_event.wctimestring, end_event.wctimestring⟩ :: tail
            else tail)
      | _, _ => Except.error "time data does not match format"
    | _, _ => Except.error "single positional indexer is out-of-bounds"

/-- `find_many_events_in_short_time_12_hour_standard(pbp_game_df,
minutes_threshold, event_num_diff)`: flag every window of
`event_num_diff` consecutive events spanning at most
`minutes_threshold` minutes. -/
def find_many_events_in_short_time_12_hour_standard (pbp_game_df : List PbpRow)
    (minutes_threshold : Int) (event_num_diff : Nat) :
    Except String (List ManyEventRow) :=
  find_many_go pbp_game_df minutes_threshold event_num_diff
    (List.range (pbp_game_df.length + 1 - event_num_diff))

/-- `TestFindLongEvents.turnover_midnight_data_no_jump`. -/
def turnover_midnight_data_no_jump : List PbpRow :=
  [⟨1, 1, "11:59 PM"⟩, ⟨1, 2, "12:00 AM"⟩, ⟨1, 3, "12:01 AM"⟩,
   ⟨1, 4, "12:02 AM"⟩, ⟨1, 5, "12:03 AM"⟩]

/-- `TestFindLongEvents.turnover_midnight_data_with_jump`. -/
def turnover_midnight_data_with_jump : List PbpRow :=
  [⟨1, 1, "11:59 PM"⟩, ⟨1, 2, "12:00 AM"⟩, ⟨1, 3, "12:04 AM"⟩,
   ⟨1, 4, "12:05 AM"⟩, ⟨1, 5, "12:06 AM"⟩]

/-! ### Specification-side contracts for the two heuristics -/

/-- The claim's rollover-adjusted difference: 24 hours are added to the
later time before differencing whenever it is the earlier of the two. -/
def adjusted_diff_minutes (start_min end_min : Nat) : Int :=
  if end_min < start_min then (end_min : Int) + 24 * 60 - (start_min : Int)
  else (end_min : Int) - (start_min : Int)

/-- Contract-side output of the gap heuristic at index `i`: a row built
from events `i` and `i + k` when their adjusted difference exceeds the
threshold. -/
def longGapHit (df : List PbpRow) (m : Int) (k : Nat) (i : Nat) : Option LongEventRow :=
  match df[i]?, df[i + k]? with
  | some a, some b =>
    match strptime12h a.wctimestring, strptime12h b.wctimestring with
    | some sa, some sb =>
      let d := adjusted_diff_minutes sa sb
      if m < d then some ⟨a.game_id, a.eventnum, a.wctimestring, b.wctimestring, d⟩
      else none
    | _, _ => none
  | _, _ => none

/-- Contract-side output of the gap heuristic: one row per index
`i ∈ [0, n - k)` whose adjusted difference is strictly above `m`. -/
def long_gap_rows_spec (df : List PbpRow) (m : Int) (k : Nat) : List LongEventRow :=
  (List.range (df.length - k)).filterMap (longGapHit df m k)

/-- Contract-side output of the density heuristic at window start `i`:
a row covering events `i` to `i + k - 1` when the adjusted difference
is at most `m`, with `EVENT_COUNT = k`. -/
def denseWindowHit (df : List PbpRow) (m : Int) (k : Nat) (i : Nat) : Option ManyEventRow :=
  match df[i]?, df[i + k - 1]? with
  | some a, some b =>
    match strptime12h a.wctimestring, strptime12h b.wctimestring with
    | some sa, some sb =>
      let d := adjusted_diff_minutes sa sb
      if d ≤ m then some ⟨a.game_id, a.eventnum, b.eventnum, k, a.wctimestring, b.wctimestring⟩
      else none
    | _, _ => none
  | _, _ => none

/-- Contract-side output of the density heuristic: one row per window
start `i ∈ [0, n - k]` whose adjusted difference is at most `m`. -/
def dense_window_rows_spec (df : List PbpRow) (m : Int) (k : Nat) : List ManyEventRow :=
  (List.range (df.length + 1 - k)).filterMap (denseWindowHit df m k)

/-! ## `pbp_scripts/season_metrics.py`: time parsing and differences -/

/-- Python `s.replace(abc, "")` for a three-character pattern: delete
every occurrence, scanning left to right. -/
def removeSub3 (a b c : Char) : List Char → List Char
  | x :: y :: z :: rest =>
    if x = a ∧ y = b ∧ z = c then removeSub3 a b c rest
    else x :: removeSub3 a b c (y :: z :: rest)
  | other => other

/-- `parse_wc_time(s)`: strip, reject the empty string, drop the time
zone suffixes `EST`/`EDT`/`CST`/`CDT`, collapse whitespace, strip, and
parse with `TIME_FMT = '%I:%M %p'`.  The result is the anchored
datetime's seconds since midnight; `none` models `None`. -/
def parse_wc_time (s : String) : Option Nat :=
  let s0 := pyStripStr s
  if s0 = "" then none
  else
    let s1 := removeSub3 'C' 'D' 'T'
      (removeSub3 'C' 'S' 'T' (removeSub3 'E' 'D' 'T' (removeSub3 'E' 'S' 'T' s0.toList)))
    let s2 := pyStrip (collapseWs s1)
    (strptime12h (String.mk s2)).map (· * 60)

/-- `diff_seconds(t1, t2)`: `None` when either endpoint is missing;
otherwise `t2 - t1` in seconds, plus one day when the raw difference
is below `-12` hours (midnight rollover). -/
def diff_seconds (t1 t2 : Option Nat) : Option Int :=
  match t1, t2 with
  | some a, some b =>
    let delta : Int := (b : Int) - (a : Int)
    if delta < -12 * 3600 then some (delta + 86400) else some delta
  | _, _ => none

/-! ## `AbhiPendyala/season_metrics.py`: `_to_seconds_from_wctime`

`pd.to_datetime(series, format="%I:%M %p", errors="coerce")` yields
`NaT` on an unparsable entry, but the following
`dt.dt.hour.fillna(0) * 3600 + dt.dt.minute.fillna(0) * 60` replaces
the missing components by zero, so the per-row seconds series carries
`some` everywhere (an unparsable row becomes 0 seconds).  The
monotonic-rollover loop then runs with its `np.isnan` branch dead. -/

/-- The per-element loop of `_to_seconds_from_wctime`: `day_add`
accumulates whole days, `prev` is the previous emitted value (`none`
before the first row); a missing entry would repeat `prev`, and a
value below `prev` gets one more day added. -/
def to_seconds_go (day_add : Nat) (prev : Option Nat) : List (Option Nat) → List (Option Nat)
  | [] => []
  | none :: rest =>
    (match prev with | none => none | some p => some p) :: to_seconds_go day_add prev rest
  | some v :: rest =>
    let vv := v + day_add
    match prev with
    | some p =>
      if vv < p then
        some (v + day_add + 86400) ::
          to_seconds_go (day_add + 86400) (some (v + day_add + 86400)) rest
      else some vv :: to_seconds_go day_add (some vv) rest
    | none => some vv :: to_seconds_go day_add (some vv) rest

/-- `_to_seconds_from_wctime(series)`: parse each entry with
`errors="coerce"`, fill missing hour/minute components with 0
(`fillna(0)`), then enforce monotonicity with day rollovers. -/
def to_seconds_from_wctime (series : List String) : List (Option Nat) :=
  to_seconds_go 0 none
    (series.map (fun s => some (((strptime12h s).map (· * 60)).getD 0)))

/-! ## Season derivation -/

/-- `infer_season_from_game_id` on a convertible identifier: require
the decimal form to start with `"10"` and have length at least 5, read
the two digits at positions `[3:5]` as `yy`, and map `yy ≥ 90` to
`1900 + yy`, otherwise to `2000 + yy`. -/
def infer_season_core (n : Nat) : Option Nat :=
  let s := (Nat.repr n).toList
  if s.length < 5 ∨ ¬ s.take 2 = ['1', '0'] then none
  else
    match s[3]?, s[4]? with
    | some c3, some c4 =>
      let yy := 10 * digitVal c3 + digitVal c4
      some (if 90 ≤ yy then 1900 + yy else 2000 + yy)
    | _, _ => none

/-- `infer_season_from_game_id(game_id)`: `str(int(game_id))` raising
models as a `none` input, which maps to `NaN` (`none`). -/
def infer_season_from_game_id (game_id : Option Nat) : Option Nat :=
  game_id.bind infer_season_core

/-- The regex `wnba_(\d{4})_` tried at one position: the literal
prefix, four digits, and the closing underscore. -/
def wnbaSeasonAt (cs : List Char) : Option Nat :=
  match cs with
  | 'w' :: 'n' :: 'b' :: 'a' :: '_' :: d1 :: d2 :: d3 :: d4 :: '_' :: _ =>
    if isDigitC d1 ∧ isDigitC d2 ∧ isDigitC d3 ∧ isDigitC d4 then
      some (1000 * digitVal d1 + 100 * digitVal d2 + 10 * digitVal d3 + digitVal d4)
    else none
  | _ => none

/-- `df["source_file"].str.extract(r"wnba_(\d{4})_")`: the first match
of the pattern, scanning left to right. -/
def extract_wnba_season : List Char → Option Nat
  | [] => none
  | c :: rest =>
    match wnbaSeasonAt (c :: rest) with
    | some y => some y
    | none => extract_wnba_season rest

/-! ## `pbp_scripts/remove_outliers.py`

`TIME_REGEX = ^\s*(\d{1,2}):(\d{2})\s*([AP]M)\s*$` (case-insensitive)
is matched after `s.strip()`: the hour is one or two digits of any
value (folded by `% 12`), the minute exactly two digits of any value,
and AM/PM may follow the minute with no space. -/

/-- `(\d{1,2})` followed by the literal `':'` (the regex backtracks,
so two digits are taken only when a colon follows them). -/
def clockHour : List Char → Option (Nat × List Char)
  | c1 :: c2 :: c3 :: rest =>
    if isDigitC c1 ∧ isDigitC c2 ∧ c3 = ':' then
      some (10 * digitVal c1 + digitVal c2, rest)
    else if isDigitC c1 ∧ c2 = ':' then some (digitVal c1, c3 :: rest)
    else none
  | [c1, c2] => if isDigitC c1 ∧ c2 = ':' then some (digitVal c1, []) else none
  | _ => none

/-- `(\d{2})`: exactly two digits, `00`-`99`. -/
def clockMin : List Char → Option (Nat × List Char)
  | c1 :: c2 :: rest =>
    if isDigitC c1 ∧ isDigitC c2 then some (10 * digitVal c1 + digitVal c2, rest)
    else none
  | _ => none

/-- `parse_clock_to_minutes(s)`: parse `'H:MM AM/PM'` to minutes since
midnight (`hh % 12`, plus 12 for PM), or `None` when the regex does
not match. -/
def parse_clock_to_minutes (s : String) : Option Nat :=
  match clockHour (pyStrip s.toList) with
  | none => none
  | some (hh, r1) =>
    match clockMin r1 with
    | none => none
    | some (mm, r2) =>
      match parseAmPm (r2.dropWhile isWsC) with
      | some (pm, rest) =>
        if rest = [] then some ((hh % 12 + if pm then 12 else 0) * 60 + mm) else none
      | none => none

/-- `first_last_valid_times(g)`: keep the parsable `WCTIMESTRING`
values in row order (preserving their original string forms), and
return the first and last of them with the end-minus-start duration,
adding 24 hours when the raw difference is negative; `(None, None,
None)` when nothing parses. -/
def first_last_valid_times (times : List String) :
    Option String × Option String × Option Int :=
  let parsed := times.filterMap (fun s => (parse_clock_to_minutes s).map (fun m => (s, m)))
  match parsed.head?, parsed.getLast? with
  | some (start_str, start_min), some (end_str, end_min) =>
    let duration : Int := (end_min : Int) - (start_min : Int)
    (some start_str, some end_str,
     some (if duration < 0 then duration + 24 * 60 else duration))
  | _, _ => (none, none, none)

/-- A CSV row: the cells, keyed by column name (`getCol` returns the
cell under a column, `""` when the row lacks it). -/
structure RawRow where
  cells : List (String × String)
deriving DecidableEq, Repr

/-- The value of row `r` in column `c`. -/
def RawRow.getCol (r : RawRow) (c : String) : String :=
  match r.cells.find? (fun p => p.1 = c) with
  | some p => p.2
  | none => ""

/-- A CSV file as `pd.read_csv` yields it: column names and rows. -/
structure RawFrame where
  cols : List String
  rows : List RawRow
deriving Repr

/-- The keys of `df.groupby("GAME_ID", sort=False)`: each distinct
value, in order of first appearance (`seen` accumulates the keys
already emitted). -/
def uniqueKeysGo (seen : List String) : List String → List String
  | [] => []
  | x :: rest =>
    if seen.contains x then uniqueKeysGo seen rest
    else x :: uniqueKeysGo (seen ++ [x]) rest

/-- Distinct values in order of first appearance. -/
def uniqueKeys (l : List String) : List String := uniqueKeysGo [] l

/-- The per-game summary row of `derive_game_summary`, restricted to
the fields that reach the outlier decision plus the `periods` field
(whose computation can raise); `teams` and `row_count` are pure
display-only fields. -/
structure GameSummary where
  game_id : String
  periods : Nat
  start_time_str : Option String
  end_time_str : Option String
  duration_min : Option Int
deriving DecidableEq, Repr

/-- LOWER_BOUND = 90 minutes. -/
def LOWER_BOUND : Int := 90

/-- UPPER_BOUND = 180 minutes. -/
def UPPER_BOUND : Int := 180

/-- One cell under `pd.to_numeric(·, errors="coerce")`: a decimal
number, or `NaN` (`none`) for empty or non-numeric text (a missing
`PERIOD` column reads as `""` per row, hence `NaN`). -/
def pd_to_numeric_cell (s : String) : Option Nat :=
  let cs := pyStrip s.toList
  if cs ≠ [] ∧ cs.all isDigitC then
    some (cs.foldl (fun acc c => 10 * acc + digitVal c) 0)
  else none

/-- `pd.to_numeric(g.get("PERIOD", Series([None])), errors="coerce").max()`:
the greatest numeric value, skipping `NaN` entries (`skipna`); `NaN`
(`none`) when no entry is numeric. -/
def period_max (cells : List String) : Option Nat :=
  (cells.filterMap pd_to_numeric_cell).foldl
    (fun acc v => match acc with
      | none => some v
      | some a => some (max a v)) none

/-- The `PERIOD` column of the group of `gid`. -/
def period_cells (rows : List RawRow) (gid : String) : List String :=
  (rows.filter (fun r => r.getCol "GAME_ID" == gid)).map (fun r => r.getCol "PERIOD")

/-- `derive_game_summary(g)` for the group of `gid`: the group is the
rows whose `GAME_ID` equals `gid`; the summary carries the group's
first/last parsable times and duration, and
`periods = int(pd.to_numeric(g.get("PERIOD", Series([None])),
errors="coerce").max() or 0)`.  A `NaN` maximum (no numeric `PERIOD`
in the group, or the column missing) is truthy, so `int(NaN)` raises
`ValueError: cannot convert float NaN to integer`; a `0.0` maximum is
falsy and gives `int(0)`. -/
def derive_game_summary (rows : List RawRow) (gid : String) :
    Except String GameSummary :=
  let g := rows.filter (fun r => r.getCol "GAME_ID" == gid)
  let t := first_last_valid_times (g.map (fun r => r.getCol "WCTIMESTRING"))
  match period_max (g.map (fun r => r.getCol "PERIOD")) with
  | none => Except.error "cannot convert float NaN to integer"
  | some p => Except.ok ⟨gid, p, t.1, t.2.1, t.2.2⟩

/-- The summary values `derive_game_summary` returns when it does not
raise. -/
def derive_game_fields (rows : List RawRow) (gid : String) : GameSummary :=
  let g := rows.filter (fun r => r.getCol "GAME_ID" == gid)
  let t := first_last_valid_times (g.map (fun r => r.getCol "WCTIMESTRING"))
  ⟨gid, (period_max (g.map (fun r => r.getCol "PERIOD"))).getD 0, t.1, t.2.1, t.2.2⟩

/-- `df.groupby("GAME_ID", sort=False).apply(derive_game_summary)`
over the listed keys: group by group, the first raising group aborting
the whole `apply`. -/
def game_summaries_go (rows : List RawRow) :
    List String → Except String (List GameSummary)
  | [] => Except.ok []
  | gid :: rest =>
    match derive_game_summary rows gid with
    | Except.error e => Except.error e
    | Except.ok s =>
      match game_summaries_go rows rest with
      | Except.error e => Except.error e
      | Except.ok l => Except.ok (s :: l)

/-- `df.groupby("GAME_ID", sort=False).apply(derive_game_summary)`:
one summary per distinct `GAME_ID` in first-appearance order, or the
exception of the first group whose summary raises. -/
def game_summaries (rows : List RawRow) : Except String (List GameSummary) :=
  game_summaries_go rows (uniqueKeys (rows.map (fun r => r.getCol "GAME_ID")))

/-- The `outlier_mask`: duration missing, below `LOWER_BOUND`, or
above `UPPER_BOUND`. -/
def is_outlier_summary (s : GameSummary) : Bool :=
  match s.duration_min with
  | none => true
  | some d => decide (d < LOWER_BOUND) || decide (UPPER_BOUND < d)

/-- `bad_ids = set(outliers["GAME_ID"].tolist())`. -/
def bad_game_ids (summaries : List GameSummary) : List String :=
  (summaries.filter is_outlier_summary).map (fun s => s.game_id)

/-- `cleaned = df[~df["GAME_ID"].isin(bad_ids)]`: the input rows whose
game is not flagged, unchanged and in order. -/
def cleaned_pbp (rows : List RawRow) (summaries : List GameSummary) : List RawRow :=
  rows.filter (fun r => ! (bad_game_ids summaries).contains (r.getCol "GAME_ID"))

/-- `remove_outliers.main` after `pd.read_csv`: raise `ValueError`
when `GAME_ID` or `WCTIMESTRING` is not a column; then build the
per-game summaries, propagating the `ValueError` a group with no
numeric `PERIOD` raises; an input with no rows yields an empty,
column-less summary frame and `summaries["duration_min"]` raises
`KeyError`; otherwise write the summaries and the cleaned
play-by-play. -/
def remove_outliers_main (f : RawFrame) : Except String (List GameSummary × List RawRow) :=
  if "GAME_ID" ∉ f.cols ∨ "WCTIMESTRING" ∉ f.cols then
    Except.error "Input file must contain 'GAME_ID' and 'WCTIMESTRING' columns."
  else
    match game_summaries f.rows with
    | Except.error e => Except.error e
    | Except.ok summaries =>
      if f.rows = [] then Except.error "KeyError: 'duration_min'"
      else Except.ok (summaries, cleaned_pbp f.rows summaries)

/-! ## `pbp_scripts/season_pbp.py`: bounded retry and checkpointing

The network is modelled by a script assigning each attempt number its
outcome: the endpoint returns data, raises a connection error or read
timeout (the retryable exceptions), or raises anything else. -/

/-- What one call of `PlayByPlayV2(...).get_data_frames()[0]` does. -/
inductive AttemptResult (α : Type) : Type
  | success (data : α)
  | connError
  | otherError
deriving DecidableEq, Repr

/-- Retry settings: `MAX_ATTEMPTS = 2`. -/
def MAX_ATTEMPTS : Nat := 2

/-- The retry loop of `fetch_game_pbp`, over the remaining attempt
numbers `range(1, max_attempts + 1)`: a success returns the data, a
connection error or read timeout at the last attempt returns `None`
and otherwise retries, and any other exception returns `None` at
once. -/
def fetch_go {α : Type} (script : Nat → AttemptResult α) (max_attempts : Nat) :
    List Nat → Option α
  | [] => none
  | attempt :: rest =>
    match script attempt with
    | AttemptResult.success d => some d
    | AttemptResult.otherError => none
    | AttemptResult.connError =>
      if attempt = max_attempts then none
      else fetch_go script max_attempts rest

/-- `fetch_game_pbp(game_id, max_attempts)` under the network script:
`None` models a fetch that could not be completed. -/
def fetch_game_pbp {α : Type} (script : Nat → AttemptResult α) (max_attempts : Nat) :
    Option α :=
  fetch_go script max_attempts ((List.range max_attempts).map (· + 1))

/-- The pickled checkpoint of `save_checkpoint`. -/
structure Checkpoint (α : Type) : Type where
  play_by_play_data : List α
  failed_games : List String
  empty_games : List String
deriving DecidableEq, Repr

/-- `save_checkpoint(current_play_by_play_data, season, team_name,
failed_games, empty_games)`: persist the three pieces of state. -/
def save_checkpoint {α : Type} (current_play_by_play_data : List α)
    (failed_games empty_games : List String) : Checkpoint α :=
  ⟨current_play_by_play_data, failed_games, empty_games⟩

/-- The per-game loop of `collect_season_pbp_data`: a game whose fetch
returns `None` is appended to `failed_games`, the checkpoint is saved
(with `empty_games` left to its default `[]`, as in the call
`save_checkpoint(all_play_by_play_data, season, team_name,
failed_games)`), and the run returns `None`; an empty result is
recorded in `empty_games`; otherwise the rows are accumulated.  The
final state is checkpointed when the list is exhausted. -/
def process_games {α : Type} (fetchf : String → Option (List α)) :
    List String → List α → List String → List String →
    Option (List α) × Checkpoint α
  | [], acc, failed, empt => (some acc, save_checkpoint acc failed empt)
  | g :: rest, acc, failed, empt =>
    match fetchf g with
    | none => (none, save_checkpoint acc (failed ++ [g]) [])
    | some [] => process_games fetchf rest acc failed (empt ++ [g])
    | some d => process_games fetchf rest (acc ++ d) failed empt

/-! ## `pbp_scripts/season_metrics.py`: the per-game loop of `main`

`per_game_metrics` may return a row, return `None` (empty group), or
raise; `main` wraps the call in `try/except`, printing
`  ! Skipped GAME_ID {gid} due to error: {e}` and continuing with the
next game.  The loop is modelled parametrically in the per-game
computation. -/

/-- The warning `main` prints when a game's metrics raise. -/
def skip_warning (gid e : String) : String :=
  "  ! Skipped GAME_ID " ++ gid ++ (" due to error: " ++ e)

/-- The `for gid in game_ids` loop of `season_metrics.main`: collect
the rows of the games whose computation succeeds, and one warning per
game whose computation raises. -/
def season_metrics_process {α : Type} (per_game : String → Except String (Option α)) :
    List String → List α × List String
  | [] => ([], [])
  | gid :: rest =>
    let (rows, warnings) := season_metrics_process per_game rest
    match per_game gid with
    | Except.ok (some row) => (row :: rows, warnings)
    | Except.ok none => (rows, warnings)
    | Except.error e => (rows, skip_warning gid e :: warnings)

/-! ## Lemmas about the 12-hour parser -/

theorem digitVal_le_9 (c : Char) (h : isDigitC c = true) : digitVal c ≤ 9 := by
  simp only [isDigitC, decide_eq_true_eq] at h
  unfold digitVal
  omega

theorem parseMinuteM_le (cs : List Char) (m : Nat) (r : List Char)
    (h : parseMinuteM cs = some (m, r)) : m ≤ 59 := by
  cases cs with
  | nil => simp [parseMinuteM] at h
  | cons c1 tl =>
    cases tl with
    | nil =>
      simp only [parseMinuteM] at h
      split_ifs at h with h1
      all_goals simp only [Option.some.injEq, Prod.mk.injEq, reduceCtorEq] at h
      obtain ⟨h2, -⟩ := h
      have := digitVal_le_9 c1 h1
      omega
    | cons c2 tl2 =>
      simp only [parseMinuteM] at h
      split_ifs at h with h1 h2 h3
      all_goals simp only [Option.some.injEq, Prod.mk.injEq, reduceCtorEq] at h
      · obtain ⟨h4, -⟩ := h
        have := digitVal_le_9 c2 h1.2
        omega
      · obtain ⟨h4, -⟩ := h
        have := digitVal_le_9 c1 h3
        omega

/-- Every time `strptime(s, '%I:%M %p')` accepts lies before 24:00. -/
theorem strptime12h_lt_1440 (s : String) (v : Nat) (h : strptime12h s = some v) :
    v < 1440 := by
  unfold strptime12h at h
  cases h1 : parseHourI s.toList with
  | none => rw [h1] at h; simp at h
  | some hr =>
    obtain ⟨hh, r1⟩ := hr
    rw [h1] at h
    simp only [Option.bind_eq_bind, Option.some_bind] at h
    cases h2 : expectColon r1 with
    | none => rw [h2] at h; simp at h
    | some r2 =>
      rw [h2] at h
      simp only [Option.some_bind] at h
      cases h3 : parseMinuteM r2 with
      | none => rw [h3] at h; simp at h
      | some mr =>
        obtain ⟨mv, r3⟩ := mr
        rw [h3] at h
        simp only [Option.some_bind] at h
        cases h4 : parseWs1 r3 with
        | none => rw [h4] at h; simp at h
        | some r4 =>
          rw [h4] at h
          simp only [Option.some_bind] at h
          cases h5 : parseAmPm r4 with
          | none => rw [h5] at h; simp at h
          | some pr =>
            obtain ⟨pm, r5⟩ := pr
            rw [h5] at h
            simp only [Option.some_bind] at h
            split_ifs at h with h6 h7
            · simp only [pure, Option.some.injEq] at h
              have hm : mv ≤ 59 := parseMinuteM_le r2 mv r3 h3
              have hmod : hh % 12 < 12 := Nat.mod_lt _ (by omega)
              omega
            · simp only [pure, Option.some.injEq] at h
              have hm : mv ≤ 59 := parseMinuteM_le r2 mv r3 h3
              have hmod : hh % 12 < 12 := Nat.mod_lt _ (by omega)
              omega

/-- The code's adjusted difference is the contract's adjusted
difference. -/
theorem rollover_adjust_sub (s e : Nat) :
    rollover_adjust s e - (s : Int) = adjusted_diff_minutes s e := by
  unfold rollover_adjust adjusted_diff_minutes
  split <;> ring

/-- The adjusted difference of two parsed times is never negative. -/
theorem rollover_adjust_nonneg (s e : Nat) (hs : s < 1440) :
    0 ≤ rollover_adjust s e - (s : Int) := by
  unfold rollover_adjust
  split <;> omega

/-! ## The gap heuristic returns exactly its contract rows -/

theorem find_long_go_eq (df : List PbpRow) (m : Int) (k : Nat)
    (hp : ∀ r ∈ df, (strptime12h r.wctimestring).isSome = true) :
    ∀ l : List Nat, (∀ i ∈ l, i + k < df.length) →
      find_long_go df m k l = Except.ok (l.filterMap (longGapHit df m k)) := by
  intro l
  induction l with
  | nil => intro _; simp [find_long_go]
  | cons i rest ih =>
    intro hb
    have hik : i + k < df.length := hb i (by simp)
    have hi : i < df.length := by omega
    have ha : df[i]? = some df[i] := List.getElem?_eq_getElem hi
    have hb2 : df[i + k]? = some df[i + k] := List.getElem?_eq_getElem hik
    obtain ⟨sa, hsa⟩ := Option.isSome_iff_exists.mp (hp df[i] (List.getElem_mem hi))
    obtain ⟨sb, hsb⟩ := Option.isSome_iff_exists.mp (hp df[i + k] (List.getElem_mem hik))
    have ihr := ih (fun j hj => hb j (List.mem_cons_of_mem i hj))
    simp only [find_long_go, ha, hb2, hsa, hsb, ihr, List.filterMap_cons, longGapHit,
      rollover_adjust_sub]
    split <;> simp

theorem find_many_go_eq (df : List PbpRow) (m : Int) (k : Nat)
    (hp : ∀ r ∈ df, (strptime12h r.wctimestring).isSome = true) :
    ∀ l : List Nat, (∀ i ∈ l, i < df.length ∧ i + k - 1 < df.length) →
      find_many_go df m k l = Except.ok (l.filterMap (denseWindowHit df m k)) := by
  intro l
  induction l with
  | nil => intro _; simp [find_many_go]
  | cons i rest ih =>
    intro hb
    obtain ⟨hi, hik⟩ := hb i (by simp)
    have ha : df[i]? = some df[i] := List.getElem?_eq_getElem hi
    have hb2 : df[i + k - 1]? = some df[i + k - 1] := List.getElem?_eq_getElem hik
    obtain ⟨sa, hsa⟩ := Option.isSome_iff_exists.mp (hp df[i] (List.getElem_mem hi))
    obtain ⟨sb, hsb⟩ :=
      Option.isSome_iff_exists.mp (hp df[i + k - 1] (List.getElem_mem hik))
    have hlt : sa < 1440 := strptime12h_lt_1440 _ _ hsa
    have hnn := rollover_adjust_nonneg sa sb hlt
    rw [rollover_adjust_sub] at hnn
    have ihr := ih (fun j hj => hb j (List.mem_cons_of_mem i hj))
    simp only [find_many_go, ha, hb2, hsa, hsb, ihr, List.filterMap_cons, denseWindowHit,
      rollover_adjust_sub]
    rw [if_neg (by omega)]
    split <;> simp

/-- `find_long_events_12_hour_standard` meets its contract whenever
every row's wall clock parses. -/
theorem find_long_events_eq_spec (df : List PbpRow) (m : Int) (k : Nat)
    (hp : ∀ r ∈ df, (strptime12h r.wctimestring).isSome = true) :
    find_long_events_12_hour_standard df m k = Except.ok (long_gap_rows_spec df m k) := by
  apply find_long_go_eq df m k hp
  intro i hi
  rw [List.mem_range] at hi
  omega

/-- `find_many_events_in_short_time_12_hour_standard` meets its
contract whenever every row's wall clock parses and the window has at
least one event. -/
theorem find_many_events_eq_spec (df : List PbpRow) (m : Int) (k : Nat) (hk : 1 ≤ k)
    (hp : ∀ r ∈ df, (strptime12h r.wctimestring).isSome = true) :
    find_many_events_in_short_time_12_hour_standard df m k =
      Except.ok (dense_window_rows_spec df m k) := by
  apply find_many_go_eq df m k hp
  intro i hi
  rw [List.mem_range] at hi
  omega

/-- `TestFindLongEvents.am_data_with_jump`. -/
def am_data_with_jump : List PbpRow :=
  [⟨1, 1, "11:30 AM"⟩, ⟨1, 2, "11:31 AM"⟩, ⟨1, 3, "11:35 AM"⟩,
   ⟨1, 4, "11:36 AM"⟩, ⟨1, 5, "11:37 AM"⟩]

/-- `TestFindManyEvents.am_data_most_dupes`. -/
def am_data_most_dupes : List PbpRow :=
  [⟨1, 1, "11:30 AM"⟩, ⟨1, 2, "11:30 AM"⟩, ⟨1, 3, "11:30 AM"⟩, ⟨1, 4, "11:30 AM"⟩,
   ⟨1, 5, "11:30 AM"⟩, ⟨1, 6, "11:35 AM"⟩, ⟨1, 7, "11:36 AM"⟩, ⟨1, 8, "11:37 AM"⟩,
   ⟨1, 9, "11:38 AM"⟩, ⟨1, 10, "11:39 AM"⟩]

/-! ## Claims -/

/-- C1: in both heuristics of `find_event_densities.py`, whenever the
later event's parsed time is earlier than the earlier event's, 24
hours are added to the later time before differencing
(`rollover_adjust` is the adjustment both loops perform); on the
one-minute-apart midnight-crossing test data a 2-minute threshold
finds no long event, and on the same data with a jump of more than 2
minutes after midnight it finds one. -/
theorem claim_C1_midnight_rollover :
    (∀ start_min end_min : Nat,
      rollover_adjust start_min end_min =
        (end_min : Int) + (if end_min < start_min then 1440 else 0)) ∧
    find_long_events_12_hour_standard turnover_midnight_data_no_jump 2 1 =
      Except.ok [] ∧
    find_long_events_12_hour_standard turnover_midnight_data_with_jump 2 1 =
      Except.ok [⟨1, 2, "12:00 AM", "12:04 AM", 4⟩] := by
  refine ⟨fun s e => ?_, by decide, by decide⟩
  by_cases h : e < s <;> simp [rollover_adjust, h]

/-- C2: for every game dataframe whose `WCTIMESTRING` values all parse
in `'%I:%M %p'` format, `find_long_events_12_hour_standard(df, m, k)`
returns exactly one row per index `i ∈ [0, n - k)` whose
rollover-adjusted difference between events `i` and `i + k` strictly
exceeds `m` minutes, with `MIN_DIFF` the adjusted difference and the
other fields taken from events `i` and `i + k`, and no other rows. -/
theorem claim_C2_long_gap_contract (df : List PbpRow) (m : Int) (k : Nat)
    (hp : ∀ r ∈ df, (strptime12h r.wctimestring).isSome = true) :
    find_long_events_12_hour_standard df m k =
      Except.ok (long_gap_rows_spec df m k) :=
  find_long_events_eq_spec df m k hp

theorem claim_C2_long_gap_contract_witness :
    (∀ r ∈ am_data_with_jump, (strptime12h r.wctimestring).isSome = true) ∧
    find_long_events_12_hour_standard am_data_with_jump 2 1 =
      Except.ok (long_gap_rows_spec am_data_with_jump 2 1) :=
  ⟨by decide, claim_C2_long_gap_contract am_data_with_jump 2 1 (by decide)⟩

/-- C3: for every game dataframe whose `WCTIMESTRING` values all parse
in `'%I:%M %p'` format (and a window of at least one event),
`find_many_events_in_short_time_12_hour_standard(df, m, k)` returns
exactly one row per window start `i ∈ [0, n - k]` whose
rollover-adjusted difference between events `i` and `i + k - 1` is at
most `m` minutes, with `EVENT_COUNT = k` and `START_TIME`/`END_TIME`
the window's first and last `WCTIMESTRING`. -/
theorem claim_C3_density_window_contract (df : List PbpRow) (m : Int) (k : Nat)
    (hk : 1 ≤ k) (hp : ∀ r ∈ df, (strptime12h r.wctimestring).isSome = true) :
    find_many_events_in_short_time_12_hour_standard df m k =
      Except.ok (dense_window_rows_spec df m k) :=
  find_many_events_eq_spec df m k hk hp

theorem claim_C3_density_window_contract_witness :
    ((1 : Nat) ≤ 5 ∧ ∀ r ∈ am_data_most_dupes, (strptime12h r.wctimestring).isSome = true) ∧
    find_many_events_in_short_time_12_hour_standard am_data_most_dupes 1 5 =
      Except.ok (dense_window_rows_spec am_data_most_dupes 1 5) :=
  ⟨⟨by decide, by decide⟩,
   claim_C3_density_window_contract am_data_most_dupes 1 5 (by decide) (by decide)⟩

/-- C10: when every `WCTIMESTRING` parses (and the window has at least
one event), the `ValueError` branch of
`find_many_events_in_short_time_12_hour_standard` is unreachable: the
rollover adjustment makes the computed difference non-negative. -/
theorem claim_C10_negative_diff_unreachable (df : List PbpRow) (m : Int) (k : Nat)
    (hk : 1 ≤ k) (hp : ∀ r ∈ df, (strptime12h r.wctimestring).isSome = true) :
    find_many_events_in_short_time_12_hour_standard df m k ≠
      Except.error "The time difference cannot be negative. Please check the input data." := by
  rw [find_many_events_eq_spec df m k hk hp]
  simp

theorem claim_C10_negative_diff_unreachable_witness :
    ((1 : Nat) ≤ 5 ∧
      ∀ r ∈ turnover_midnight_data_no_jump, (strptime12h r.wctimestring).isSome = true) ∧
    find_many_events_in_short_time_12_hour_standard turnover_midnight_data_no_jump 1 5 ≠
      Except.error "The time difference cannot be negative. Please check the input data." :=
  ⟨⟨by decide, by decide⟩,
   claim_C10_negative_diff_unreachable turnover_midnight_data_no_jump 1 5
     (by decide) (by decide)⟩

/-- C4 counterexample: in `AbhiPendyala/season_metrics.py` the entry
for the unparsable `"oops"` is the fabricated wall-clock value `some
86400` (0 seconds plus one rollover day, from `fillna(0)`), not a
missing value. -/
theorem claim_C4_counterexample :
    (to_seconds_from_wctime ["8:24 PM", "oops"])[1]? = some (some 86400) ∧
    (to_seconds_from_wctime ["8:24 PM", "oops"])[1]? ≠ some none := by
  constructor
  · decide
  · decide

/-- C4 (amended): in `pbp_scripts/season_metrics.py`, `parse_wc_time`
maps unparsable `WCTIMESTRING` values to `None` (after stripping
time-zone suffixes) and `diff_seconds` is `None` exactly when an
endpoint is missing; but in `AbhiPendyala/season_metrics.py`,
`_to_seconds_from_wctime` fills unparsable timestamps with 0 seconds
(`fillna(0)`) before the rollover pass, fabricating a wall-clock value
instead of a missing one. -/
theorem claim_C4_missing_propagation :
    (∀ t : Option Nat, diff_seconds none t = none ∧ diff_seconds t none = none) ∧
    (∀ a b : Nat, (diff_seconds (some a) (some b)).isSome = true) ∧
    parse_wc_time "garbage" = none ∧
    parse_wc_time "" = none ∧
    parse_wc_time "8:24 PM EST" = some 73440 ∧
    to_seconds_from_wctime ["8:24 PM", "oops"] = [some 73440, some 86400] := by
  refine ⟨fun t => ⟨rfl, ?_⟩, fun a b => ?_, by decide, by decide, by decide, by decide⟩
  · cases t <;> rfl
  · simp only [diff_seconds]
    split <;> rfl

/-! ## Lemmas about the summary pipeline of `remove_outliers.main` -/

/-- `derive_game_summary` raises exactly when the group has no
numeric `PERIOD` value (`int(NaN)`). -/
theorem derive_error_iff (rows : List RawRow) (gid : String) :
    (∃ e, derive_game_summary rows gid = Except.error e) ↔
      period_max (period_cells rows gid) = none := by
  simp only [derive_game_summary, period_cells]
  cases hp : period_max ((rows.filter (fun r => r.getCol "GAME_ID" == gid)).map
      (fun r => r.getCol "PERIOD")) with
  | none => simp [hp]
  | some p => simp [hp]

/-- A summary `derive_game_summary` returns is its group's field
values. -/
theorem derive_ok_eq (rows : List RawRow) (gid : String) (s : GameSummary)
    (h : derive_game_summary rows gid = Except.ok s) :
    s = derive_game_fields rows gid := by
  simp only [derive_game_summary] at h
  simp only [derive_game_fields]
  cases hp : period_max ((rows.filter (fun r => r.getCol "GAME_ID" == gid)).map
      (fun r => r.getCol "PERIOD")) with
  | none => rw [hp] at h; simp at h
  | some p =>
    rw [hp] at h
    simp only [Except.ok.injEq] at h
    rw [← h]
    simp [hp]

/-- When no group raises, the summaries are the field values of the
keys, in order. -/
theorem game_summaries_go_ok_eq (rows : List RawRow) :
    ∀ (keys : List String) (out : List GameSummary),
      game_summaries_go rows keys = Except.ok out →
      out = keys.map (derive_game_fields rows) := by
  intro keys
  induction keys with
  | nil =>
    intro out h
    simp only [game_summaries_go, Except.ok.injEq] at h
    simp [← h]
  | cons gid rest ih =>
    intro out h
    simp only [game_summaries_go] at h
    cases hd : derive_game_summary rows gid with
    | error e => rw [hd] at h; simp at h
    | ok s =>
      rw [hd] at h
      cases hr : game_summaries_go rows rest with
      | error e => rw [hr] at h; simp at h
      | ok l =>
        rw [hr] at h
        simp only [Except.ok.injEq] at h
        rw [← h, List.map_cons, ih l hr, derive_ok_eq rows gid s hd]

/-- `groupby(...).apply(derive_game_summary)` raises exactly when some
group has no numeric `PERIOD` value. -/
theorem game_summaries_go_error_iff (rows : List RawRow) :
    ∀ keys : List String,
      (∃ e, game_summaries_go rows keys = Except.error e) ↔
        ∃ gid ∈ keys, period_max (period_cells rows gid) = none := by
  intro keys
  induction keys with
  | nil => simp [game_summaries_go]
  | cons gid rest ih =>
    simp only [game_summaries_go]
    cases hd : derive_game_summary rows gid with
    | error e =>
      simp only [hd]
      constructor
      · intro _
        exact ⟨gid, List.mem_cons_self gid rest,
          (derive_error_iff rows gid).mp ⟨e, hd⟩⟩
      · intro _
        exact ⟨e, rfl⟩
    | ok s =>
      simp only [hd]
      have hnotnone : ¬ period_max (period_cells rows gid) = none := by
        intro hnone
        obtain ⟨e, he⟩ := (derive_error_iff rows gid).mpr hnone
        rw [hd] at he
        exact absurd he (by simp)
      cases hr : game_summaries_go rows rest with
      | error e2 =>
        simp only [hr]
        constructor
        · intro _
          obtain ⟨gid', hmem, hnone⟩ := ih.mp ⟨e2, hr⟩
          exact ⟨gid', List.mem_cons_of_mem _ hmem, hnone⟩
        · intro _
          exact ⟨e2, rfl⟩
      | ok l =>
        simp only [hr]
        constructor
        · rintro ⟨e, he⟩
          exact absurd he (by simp)
        · rintro ⟨gid', hmem, hnone⟩
          rcases List.mem_cons.mp hmem with rfl | hmem'
          · exact absurd hnone hnotnone
          · obtain ⟨e, he⟩ := ih.mpr ⟨gid', hmem', hnone⟩
            rw [he] at hr
            exact absurd hr (by simp)

/-- `game_summaries` raises exactly when some game has no numeric
`PERIOD` value. -/
theorem game_summaries_error_iff (rows : List RawRow) :
    (∃ e, game_summaries rows = Except.error e) ↔
      ∃ gid ∈ uniqueKeys (rows.map (fun r => r.getCol "GAME_ID")),
        period_max (period_cells rows gid) = none :=
  game_summaries_go_error_iff rows _

/-- A frame with both required columns whose single game's rows have
no `PERIOD` column. -/
def no_period_frame : RawFrame :=
  ⟨["GAME_ID", "WCTIMESTRING"],
   [⟨[("GAME_ID", "1"), ("WCTIMESTRING", "8:24 PM")]⟩]⟩

/-- C5 counterexample: on a CSV that has both `GAME_ID` and
`WCTIMESTRING` but no `PERIOD` column, `derive_game_summary`'s
`periods = int(pd.to_numeric(g.get("PERIOD", Series([None])),
errors="coerce").max() or 0)` computes `int(NaN)` and
`remove_outliers.main` raises `ValueError` although neither required
column is missing — refuting the claim's "if and only if". -/
theorem claim_C5_counterexample :
    remove_outliers_main no_period_frame =
      Except.error "cannot convert float NaN to integer" ∧
    "GAME_ID" ∈ no_period_frame.cols ∧ "WCTIMESTRING" ∈ no_period_frame.cols := by
  refine ⟨by decide, by decide, by decide⟩

/-- C5 (amended): a missing `GAME_ID` or `WCTIMESTRING` column raises
`ValueError` immediately; but with both columns present
`remove_outliers.main` can still abort: it propagates the `ValueError`
of the first game group with no numeric `PERIOD` value (`int(NaN)` in
`derive_game_summary`), and raises `KeyError` on an input with no
rows; the per-game loop of `season_metrics.main` catches every
exception, prints one warning naming the `GAME_ID`, skips that game
and continues with the rest. -/
theorem claim_C5_error_handling :
    (∀ f : RawFrame, ("GAME_ID" ∉ f.cols ∨ "WCTIMESTRING" ∉ f.cols) →
      remove_outliers_main f =
        Except.error "Input file must contain 'GAME_ID' and 'WCTIMESTRING' columns.") ∧
    (∀ f : RawFrame,
      (∃ e, remove_outliers_main f = Except.error e) ↔
        ("GAME_ID" ∉ f.cols ∨ "WCTIMESTRING" ∉ f.cols ∨
         (∃ gid ∈ uniqueKeys (f.rows.map (fun r => r.getCol "GAME_ID")),
            period_max (period_cells f.rows gid) = none) ∨
         f.rows = [])) ∧
    (∀ (α : Type) (per_game : String → Except String (Option α)) (gids : List String),
      season_metrics_process per_game gids =
        (gids.filterMap (fun g => match per_game g with
          | Except.ok r => r
          | Except.error _ => none),
         gids.filterMap (fun g => match per_game g with
          | Except.error e => some (skip_warning g e)
          | Except.ok _ => none))) ∧
    (∀ gid e, ∃ pre post, skip_warning gid e = pre ++ gid ++ post) := by
  refine ⟨fun f h => ?_, fun f => ?_, fun α per_game gids => ?_,
    fun gid e => ⟨"  ! Skipped GAME_ID ", " due to error: " ++ e, rfl⟩⟩
  · unfold remove_outliers_main
    rw [if_pos h]
  · by_cases h : "GAME_ID" ∉ f.cols ∨ "WCTIMESTRING" ∉ f.cols
    · unfold remove_outliers_main
      rw [if_pos h]
      constructor
      · intro _
        rcases h with h | h
        · exact Or.inl h
        · exact Or.inr (Or.inl h)
      · intro _
        exact ⟨_, rfl⟩
    · unfold remove_outliers_main
      rw [if_neg h]
      push_neg at h
      cases hs : game_summaries f.rows with
      | error e =>
        simp only [hs]
        constructor
        · intro _
          exact Or.inr (Or.inr (Or.inl ((game_summaries_error_iff f.rows).mp ⟨e, hs⟩)))
        · intro _
          exact ⟨e, rfl⟩
      | ok summaries =>
        simp only [hs]
        by_cases hrows : f.rows = []
        · rw [if_pos hrows]
          constructor
          · intro _
            exact Or.inr (Or.inr (Or.inr hrows))
          · intro _
            exact ⟨_, rfl⟩
        · rw [if_neg hrows]
          constructor
          · rintro ⟨e, he⟩
            exact absurd he (by simp)
          · rintro (hA | hB | hX | hY)
            · exact absurd h.1 hA
            · exact absurd h.2 hB
            · obtain ⟨e, he⟩ := (game_summaries_error_iff f.rows).mpr hX
              rw [hs] at he
              exact absurd he (by simp)
            · exact absurd hY hrows
  · induction gids with
    | nil => simp [season_metrics_process]
    | cons g rest ih =>
      cases hg : per_game g with
      | ok o =>
        cases o <;>
          simp [season_metrics_process, ih, List.filterMap_cons, hg]
      | error e =>
        simp [season_metrics_process, ih, List.filterMap_cons, hg]

/-- C6: `fetch_game_pbp` retries a connection error or read timeout up
to `MAX_ATTEMPTS = 2` attempts and returns `None` once the last
attempt fails, returns `None` at once on any other exception, and a
game whose fetch returned `None` is appended to `failed_games` and
persisted in the saved checkpoint instead of crashing the run. -/
theorem claim_C6_retry_then_queue (fetchf : String → Option (List Nat)) (g : String)
    (rest : List String) (acc : List Nat) (failed empt : List String)
    (hf : fetchf g = none) :
    MAX_ATTEMPTS = 2 ∧
    fetch_game_pbp (fun _ => (AttemptResult.connError : AttemptResult (List Nat)))
      MAX_ATTEMPTS = none ∧
    (∀ d : List Nat, fetch_game_pbp
      (fun a => if a = 1 then AttemptResult.connError else AttemptResult.success d)
      MAX_ATTEMPTS = some d) ∧
    (∀ d : List Nat, fetch_game_pbp
      (fun a => if a = 1 then AttemptResult.otherError else AttemptResult.success d)
      MAX_ATTEMPTS = none) ∧
    process_games fetchf (g :: rest) acc failed empt =
      (none, save_checkpoint acc (failed ++ [g]) []) ∧
    g ∈ (save_checkpoint acc (failed ++ [g]) []).failed_games := by
  refine ⟨rfl, rfl, fun d => rfl, fun d => rfl, ?_, by simp [save_checkpoint]⟩
  simp [process_games, hf]

theorem claim_C6_retry_then_queue_witness :
    MAX_ATTEMPTS = 2 ∧
    fetch_game_pbp (fun _ => (AttemptResult.connError : AttemptResult (List Nat)))
      MAX_ATTEMPTS = none ∧
    (∀ d : List Nat, fetch_game_pbp
      (fun a => if a = 1 then AttemptResult.connError else AttemptResult.success d)
      MAX_ATTEMPTS = some d) ∧
    (∀ d : List Nat, fetch_game_pbp
      (fun a => if a = 1 then AttemptResult.otherError else AttemptResult.success d)
      MAX_ATTEMPTS = none) ∧
    process_games (fun _ => (none : Option (List Nat))) ["1022400001"] [] [] [] =
      (none, save_checkpoint [] ([] ++ ["1022400001"]) []) ∧
    "1022400001" ∈ (save_checkpoint ([] : List Nat) ([] ++ ["1022400001"]) []).failed_games :=
  claim_C6_retry_then_queue (fun _ => none) "1022400001" [] [] [] [] rfl

/-- C7: for every game identifier whose decimal form starts with
`"10"` and has at least 5 characters, `infer_season_from_game_id`
returns `1900 + yy` when the digits at positions `[3:5]` are
`yy ≥ 90` and `2000 + yy` when `yy < 90`; every other input (including
an unconvertible one) maps to `NaN`; and the filename-based
alternative extracts the 4-digit number following `wnba_` from the
`source_file` value. -/
theorem claim_C7_season_derivation (n : Nat) (c3 c4 : Char) (mbad : Nat)
    (d1 d2 d3 d4 : Char) (post : List Char)
    (h3 : (Nat.repr n).toList[3]? = some c3)
    (h4 : (Nat.repr n).toList[4]? = some c4)
    (hstart : (Nat.repr n).toList.take 2 = ['1', '0'])
    (hlen : 5 ≤ (Nat.repr n).toList.length)
    (hbad : ¬ ((Nat.repr mbad).toList.take 2 = ['1', '0'] ∧
               5 ≤ (Nat.repr mbad).toList.length))
    (hd : (isDigitC d1 && isDigitC d2 && isDigitC d3 && isDigitC d4) = true) :
    infer_season_core n =
      some (if 90 ≤ 10 * digitVal c3 + digitVal c4
            then 1900 + (10 * digitVal c3 + digitVal c4)
            else 2000 + (10 * digitVal c3 + digitVal c4)) ∧
    infer_season_core mbad = none ∧
    infer_season_from_game_id none = none ∧
    extract_wnba_season
        ('w' :: 'n' :: 'b' :: 'a' :: '_' :: d1 :: d2 :: d3 :: d4 :: '_' :: post) =
      some (1000 * digitVal d1 + 100 * digitVal d2 + 10 * digitVal d3 + digitVal d4) := by
  refine ⟨?_, ?_, rfl, ?_⟩
  · unfold infer_season_core
    rw [if_neg (by push_neg; exact ⟨by omega, hstart⟩)]
    rw [h3, h4]
  · unfold infer_season_core
    rw [if_pos]
    rcases Nat.lt_or_ge ((Nat.repr mbad).toList.length) 5 with hl | hl
    · exact Or.inl hl
    · exact Or.inr (fun ht => hbad ⟨ht, hl⟩)
  · simp only [Bool.and_eq_true] at hd
    obtain ⟨⟨⟨hd1, hd2⟩, hd3⟩, hd4⟩ := hd
    simp [extract_wnba_season, wnbaSeasonAt, hd1, hd2, hd3, hd4]

theorem claim_C7_season_derivation_witness :
    infer_season_core 1029700010 = some 1997 ∧
    infer_season_core 5 = none ∧
    infer_season_from_game_id none = none ∧
    extract_wnba_season "wnba_2014_Team_pbp".toList = some 2014 :=
  claim_C7_season_derivation 1029700010 '9' '7' 5 '2' '0' '1' '4'
    "Team_pbp".toList (by decide) (by decide) (by decide) (by decide)
    (by decide) (by decide)

/-! ## Lemmas about `first_last_valid_times` -/

/-- The parsable `(string, minutes)` pairs are the parsable strings
paired with their parsed values. -/
theorem filterMap_parse_eq (times : List String) :
    times.filterMap (fun s => (parse_clock_to_minutes s).map (fun m => (s, m))) =
      (times.filter (fun s => (parse_clock_to_minutes s).isSome)).map
        (fun s => (s, (parse_clock_to_minutes s).getD 0)) := by
  induction times with
  | nil => simp
  | cons s rest ih =>
    cases h : parse_clock_to_minutes s with
    | none => simp [List.filterMap_cons, List.filter_cons, h, ih]
    | some m => simp [List.filterMap_cons, List.filter_cons, h, ih]

/-- The duration computed from two sub-1440 clock values lies in
`[0, 1440)`. -/
theorem duration_in_range (x y : Nat) (hx : x < 1440) (hy : y < 1440) :
    0 ≤ (if (y : Int) - (x : Int) < 0
         then (y : Int) - (x : Int) + 24 * 60 else (y : Int) - (x : Int)) ∧
    (if (y : Int) - (x : Int) < 0
     then (y : Int) - (x : Int) + 24 * 60 else (y : Int) - (x : Int)) < 1440 := by
  split <;> omega

/-- C8 counterexample: `"11:99 PM"` matches `TIME_REGEX` (the minute
group is `(\d{2})`, unbounded) and parses to 1479 minutes, so the pair
`["11:99 PM", "12:00 AM"]` yields the duration `-39`, outside
`[0, 1440)`. -/
theorem claim_C8_counterexample :
    first_last_valid_times ["11:99 PM", "12:00 AM"] =
      (some "11:99 PM", some "12:00 AM", some (-39)) ∧
    ¬ (0 ≤ (-39 : Int) ∧ (-39 : Int) < 1440) := by
  constructor
  · decide
  · decide

/-- C8 (amended): for a game group in which every parsable
`WCTIMESTRING` parses below 1440 minutes (in particular whenever its
minute field is at most 59), `first_last_valid_times` returns the
first and last parsable strings in row order with a duration in
`[0, 1440)`, a negative raw difference getting 24 hours added; when
nothing parses it returns `(None, None, None)`. -/
theorem claim_C8_duration_range (times : List String)
    (hb : ∀ s ∈ times, (parse_clock_to_minutes s).getD 0 < 1440) :
    ((∀ s ∈ times, parse_clock_to_minutes s = none) →
      first_last_valid_times times = (none, none, none)) ∧
    ((∃ s ∈ times, (parse_clock_to_minutes s).isSome = true) →
      ∃ d : Int,
        first_last_valid_times times =
          ((times.filter (fun s => (parse_clock_to_minutes s).isSome)).head?,
           (times.filter (fun s => (parse_clock_to_minutes s).isSome)).getLast?,
           some d) ∧ 0 ≤ d ∧ d < 1440) := by
  constructor
  · intro hnone
    have hfil : times.filter (fun s => (parse_clock_to_minutes s).isSome) = [] :=
      List.filter_eq_nil_iff.mpr (fun s hs => by simp [hnone s hs])
    unfold first_last_valid_times
    rw [filterMap_parse_eq, hfil]
    simp
  · rintro ⟨s, hs, hsome⟩
    have hne : times.filter (fun s => (parse_clock_to_minutes s).isSome) ≠ [] :=
      List.ne_nil_of_mem (List.mem_filter.mpr ⟨hs, hsome⟩)
    obtain ⟨a, ha⟩ := Option.isSome_iff_exists.mp (List.head?_isSome.mpr hne)
    obtain ⟨b, hbl⟩ := Option.isSome_iff_exists.mp (List.getLast?_isSome.mpr hne)
    have hamem : a ∈ times.filter (fun s => (parse_clock_to_minutes s).isSome) :=
      List.mem_of_mem_head? (by simp [ha])
    have hbmem : b ∈ times.filter (fun s => (parse_clock_to_minutes s).isSome) :=
      List.mem_of_getLast?_eq_some hbl
    have hav : (parse_clock_to_minutes a).getD 0 < 1440 :=
      hb a (List.mem_of_mem_filter hamem)
    have hbv : (parse_clock_to_minutes b).getD 0 < 1440 :=
      hb b (List.mem_of_mem_filter hbmem)
    refine ⟨_, ?_, duration_in_range _ _ hav hbv⟩
    unfold first_last_valid_times
    rw [filterMap_parse_eq]
    simp only [List.head?_map, List.getLast?_map, ha, hbl]
    rfl

theorem claim_C8_duration_range_witness :
    (∀ s ∈ ["11:30 AM", "zzz", "1:05 PM"], (parse_clock_to_minutes s).getD 0 < 1440) ∧
    (((∀ s ∈ ["11:30 AM", "zzz", "1:05 PM"], parse_clock_to_minutes s = none) →
       first_last_valid_times ["11:30 AM", "zzz", "1:05 PM"] = (none, none, none)) ∧
     ((∃ s ∈ ["11:30 AM", "zzz", "1:05 PM"], (parse_clock_to_minutes s).isSome = true) →
       ∃ d : Int,
         first_last_valid_times ["11:30 AM", "zzz", "1:05 PM"] =
           ((["11:30 AM", "zzz", "1:05 PM"].filter
               (fun s => (parse_clock_to_minutes s).isSome)).head?,
            (["11:30 AM", "zzz", "1:05 PM"].filter
               (fun s => (parse_clock_to_minutes s).isSome)).getLast?,
            some d) ∧ 0 ≤ d ∧ d < 1440)) :=
  ⟨by decide, claim_C8_duration_range ["11:30 AM", "zzz", "1:05 PM"] (by decide)⟩

/-! ## Lemmas about the outlier filter -/

theorem mem_uniqueKeysGo (x : String) :
    ∀ (l seen : List String), x ∈ uniqueKeysGo seen l ↔ x ∈ l ∧ x ∉ seen := by
  intro l
  induction l with
  | nil => intro seen; simp [uniqueKeysGo]
  | cons y rest ih =>
    intro seen
    simp only [uniqueKeysGo]
    split_ifs with hy
    · have hy' : y ∈ seen := by simpa using hy
      rw [ih]
      simp only [List.mem_cons]
      constructor
      · rintro ⟨hx, hn⟩
        exact ⟨Or.inr hx, hn⟩
      · rintro ⟨rfl | hx, hn⟩
        · exact absurd hy' hn
        · exact ⟨hx, hn⟩
    · have hy' : y ∉ seen := by simpa using hy
      simp only [List.mem_cons, ih, List.mem_append, List.mem_singleton]
      constructor
      · rintro (rfl | ⟨hx, hn⟩)
        · exact ⟨Or.inl rfl, hy'⟩
        · push_neg at hn
          exact ⟨Or.inr hx, hn.1⟩
      · rintro ⟨rfl | hx, hn⟩
        · exact Or.inl rfl
        · by_cases hxy : x = y
          · exact Or.inl hxy
          · exact Or.inr ⟨hx, by simp [hn, hxy]⟩

theorem mem_uniqueKeys (x : String) (l : List String) : x ∈ uniqueKeys l ↔ x ∈ l := by
  simp [uniqueKeys, mem_uniqueKeysGo]

/-- The duration `remove_outliers` computes for the game `gid`: the
last minus the first parsable wall clock of the rows whose `GAME_ID`
is `gid`. -/
def game_duration_for (rows : List RawRow) (gid : String) : Option Int :=
  (first_last_valid_times
    ((rows.filter (fun r => r.getCol "GAME_ID" == gid)).map
      (fun r => r.getCol "WCTIMESTRING"))).2.2

/-- The claim's outlier predicate: the duration is missing, strictly
below 90, or strictly above 180 minutes. -/
def outlier_duration_value (d : Option Int) : Bool :=
  match d with
  | none => true
  | some x => decide (x < 90) || decide (180 < x)

theorem is_outlier_derive (rows : List RawRow) (gid : String) :
    is_outlier_summary (derive_game_fields rows gid) =
      outlier_duration_value (game_duration_for rows gid) := rfl

theorem mem_bad_iff (rows : List RawRow) (summaries : List GameSummary) (gid : String)
    (hok : game_summaries rows = Except.ok summaries) :
    gid ∈ bad_game_ids summaries ↔
      gid ∈ rows.map (fun r => r.getCol "GAME_ID") ∧
        outlier_duration_value (game_duration_for rows gid) = true := by
  have hsum := game_summaries_go_ok_eq rows _ summaries hok
  subst hsum
  unfold bad_game_ids
  simp only [List.mem_map, List.mem_filter, mem_uniqueKeys]
  constructor
  · rintro ⟨s, ⟨⟨g', hg', rfl⟩, houtl⟩, hgid⟩
    have hg'' : g' = gid := hgid
    subst hg''
    exact ⟨hg', by rwa [is_outlier_derive] at houtl⟩
  · rintro ⟨hg, hout⟩
    exact ⟨derive_game_fields rows gid, ⟨⟨gid, hg, rfl⟩, by rwa [is_outlier_derive]⟩, rfl⟩

theorem bad_contains_eq (rows : List RawRow) (summaries : List GameSummary) (r : RawRow)
    (hok : game_summaries rows = Except.ok summaries) (hr : r ∈ rows) :
    (bad_game_ids summaries).contains (r.getCol "GAME_ID") =
      outlier_duration_value (game_duration_for rows (r.getCol "GAME_ID")) := by
  have hg : r.getCol "GAME_ID" ∈ rows.map (fun r => r.getCol "GAME_ID") :=
    List.mem_map_of_mem _ hr
  cases h : outlier_duration_value (game_duration_for rows (r.getCol "GAME_ID")) with
  | true =>
    have hmem := (mem_bad_iff rows summaries _ hok).mpr ⟨hg, h⟩
    simpa using hmem
  | false =>
    have hnmem : r.getCol "GAME_ID" ∉ bad_game_ids summaries := by
      intro hm
      have := ((mem_bad_iff rows summaries _ hok).mp hm).2
      rw [h] at this
      exact absurd this (by simp)
    simpa using hnmem

/-- C9: a game is an outlier exactly when its computed duration is
missing, below `LOWER_BOUND = 90`, or above `UPPER_BOUND = 180`
minutes (despite the CLI description's `107-177`), and whenever the
summary pass completes (so a cleaned CSV is written at all) the
cleaned play-by-play is exactly the input rows whose game is not an
outlier, unchanged and in order. -/
theorem claim_C9_outlier_filter :
    LOWER_BOUND = 90 ∧ UPPER_BOUND = 180 ∧
    (∀ s : GameSummary, is_outlier_summary s = true ↔
      (s.duration_min = none ∨ ∃ x, s.duration_min = some x ∧ (x < 90 ∨ 180 < x))) ∧
    (∀ (rows : List RawRow) (summaries : List GameSummary),
      game_summaries rows = Except.ok summaries →
      cleaned_pbp rows summaries =
        rows.filter (fun r =>
          ! outlier_duration_value (game_duration_for rows (r.getCol "GAME_ID")))) := by
  refine ⟨rfl, rfl, fun s => ?_, fun rows summaries hok => ?_⟩
  · unfold is_outlier_summary
    cases hd : s.duration_min with
    | none => simp [hd]
    | some x => simp [hd, LOWER_BOUND, UPPER_BOUND]
  · unfold cleaned_pbp
    apply List.filter_congr
    intro r hr
    rw [bad_contains_eq rows summaries r hok hr]

end GameDuration
